import Mathlib

/-!
Shallow embedding of `src/server.js` (the admin-panel API): JS values and
truthiness, environment parsing of `ALLOWED_DBS`, tenant resolution
(`getDbName`), the per-tenant connection-pool registry (`getPool`), the
semantics of the two `app_config` SQL statements, and the two
`/api/app-config` route handlers, together with theorems settling the
specification's claims about them.
-/

deriving instance DecidableEq for Except

namespace VertexRag

/-- A JSON/JavaScript value as it appears in request bodies and in values
bound into SQL statements.  `undefined` stands for an absent field. -/
inductive JSValue where
  | null
  | undefined
  | bool (b : Bool)
  | num (n : Int)
  | str (s : String)
deriving DecidableEq

/-- JavaScript truthiness of a value, as used by `!config_key` and by the
`||` operators in the route handlers. -/
def JSValue.truthy : JSValue → Bool
  | .null => false
  | .undefined => false
  | .bool b => b
  | .num n => n != 0
  | .str s => s != ""

/-- JS `v || null`, as in `config_value || null` and `description || null`. -/
def JSValue.orNull (v : JSValue) : JSValue :=
  if v.truthy then v else .null

/-- The pg client's text rendering of a parameter bound into the text
`config_key` column.  Falsy keys never reach the statement (the route
rejects them first), so the `null`/`undefined` branches are unreachable. -/
def JSValue.sqlText : JSValue → String
  | .null => ""
  | .undefined => ""
  | .bool b => if b then "true" else "false"
  | .num n => toString n
  | .str s => s

/-- JS `String.prototype.split` with a one-character separator, on the
character list of the string: `''.split(',') = ['']`, and every occurrence
of the separator starts a new field. -/
def jsSplit (sep : Char) : List Char → List (List Char)
  | [] => [[]]
  | c :: rest =>
    let r := jsSplit sep rest
    if c = sep then [] :: r
    else
      match r with
      | [] => [[c]]
      | w :: ws => (c :: w) :: ws

/-- JS `String.prototype.trim`: strip whitespace from both ends. -/
def jsTrim (s : List Char) : List Char :=
  ((s.dropWhile Char.isWhitespace).reverse.dropWhile Char.isWhitespace).reverse

/-- The process environment variables read at the top of `server.js`;
`none` models an unset variable. -/
structure Env where
  DB_USER : Option String := none
  DB_PASS : Option String := none
  DB_HOST : Option String := none
  DB_PORT : Option String := none
  ALLOWED_DBS : Option String := none

/-- JS `process.env.X || defaultString` (an unset or empty variable falls
back to the default). -/
def jsOrDefault (v : Option String) (d : String) : String :=
  match v with
  | some s => if s = "" then d else s
  | none => d

/-- `const dbUser = process.env.DB_USER || 'postgres'`. -/
def dbUser (env : Env) : String := jsOrDefault env.DB_USER "postgres"

/-- `const dbPass = process.env.DB_PASS` (no default; may be undefined). -/
def dbPass (env : Env) : Option String := env.DB_PASS

/-- `const dbHost = process.env.DB_HOST || '127.0.0.1'`. -/
def dbHost (env : Env) : String := jsOrDefault env.DB_HOST "127.0.0.1"

/-- `const dbPort = process.env.DB_PORT || 5432` (a string when set and
non-empty, else the number 5432). -/
def dbPort (env : Env) : JSValue :=
  match env.DB_PORT with
  | some s => if s = "" then .num 5432 else .str s
  | none => .num 5432

/-- `const allowedDbs = (process.env.ALLOWED_DBS || '').split(',').map(s => s.trim())`. -/
def allowedDbs (env : Env) : List String :=
  (jsSplit ',' ((env.ALLOWED_DBS.getD "").data)).map (fun w => (jsTrim w).asString)

/-- `getDbName`: effective name is the `X-DB-Name` header if present and
truthy, else `allowedDbs[0]`; it must be contained in `allowedDbs` or the
function throws ``DB ${dbName} not allowed``.  `none` models both an absent
header and, for the scrutinee, JS `undefined` (`allowedDbs[0]` of an empty
array); the error message renders `undefined` the way template literals do. -/
def getDbName (allowed : List String) (hdr : Option String) : Except String String :=
  let dbName : Option String :=
    match hdr with
    | some h => if h = "" then allowed.head? else some h
    | none => allowed.head?
  match dbName with
  | some d =>
      if d ∈ allowed then .ok d
      else .error ("DB " ++ d ++ " not allowed")
  | none => .error ("DB undefined not allowed")

/-- The options object passed to `new Pool({...})` in `getPool`.  The `max`
field models pg's optional maximum-connection-count option, which `getPool`
does not set (`none` = omitted, so the library default applies). -/
structure PoolConfig where
  user : String
  password : Option String
  host : String
  port : JSValue
  database : String
  max : Option Nat
deriving DecidableEq

/-- A pool instance: its creation-order identity plus the options it was
constructed with. -/
structure Pool where
  id : Nat
  config : PoolConfig
deriving DecidableEq

/-- The module-level `const pools = new Map()` registry, with a counter
giving fresh identities to newly constructed pools. -/
structure Registry where
  pools : List (String × Pool)
  nextId : Nat
deriving DecidableEq

/-- The registry at process start: empty map. -/
def Registry.init : Registry := ⟨[], 0⟩

/-- The options object built inside `getPool` for database `dbName`:
`{ user: dbUser, password: dbPass, host: dbHost, port: dbPort, database: dbName }`. -/
def mkPoolConfig (env : Env) (dbName : String) : PoolConfig :=
  { user := dbUser env
    password := dbPass env
    host := dbHost env
    port := dbPort env
    database := dbName
    max := none }

/-- `getPool(dbName)`: if the registry has no pool for `dbName`, construct
one and insert it; return the registry's pool for `dbName` and the updated
registry. -/
def getPool (env : Env) (st : Registry) (dbName : String) : Pool × Registry :=
  match st.pools.lookup dbName with
  | some p => (p, st)
  | none =>
      let p : Pool := { id := st.nextId, config := mkPoolConfig env dbName }
      (p, { pools := st.pools ++ [(dbName, p)], nextId := st.nextId + 1 })

/-- One row of the `app_config` table. -/
structure ConfigRow where
  config_key : String
  config_value : JSValue
  description : JSValue
  updated_at : Nat
deriving DecidableEq

/-- SQL equality of a row's `config_key` with key text `k`. -/
def keyIs (k : String) (r : ConfigRow) : Bool :=
  r.config_key = k

/-- Semantics of the route's upsert statement
`INSERT INTO app_config ... ON CONFLICT (config_key) DO UPDATE ... RETURNING *`
against table state `table` at transaction time `now`: replace the row whose
unique `config_key` conflicts, else append a fresh row; also return the
affected row (`RETURNING *`). -/
def sqlUpsert (table : List ConfigRow) (key value descr : JSValue) (now : Nat) :
    List ConfigRow × ConfigRow :=
  let k := key.sqlText
  let row : ConfigRow :=
    { config_key := k, config_value := value, description := descr, updated_at := now }
  if table.any (keyIs k) then
    (table.map (fun r => if keyIs k r then row else r), row)
  else
    (table ++ [row], row)

/-- Lexicographic order on character lists, modelling the SQL text ordering
used by `ORDER BY config_key`. -/
def clLE : List Char → List Char → Bool
  | [], _ => true
  | _ :: _, [] => false
  | a :: as, b :: bs => if a = b then clLE as bs else a < b

/-- Row comparison by `config_key`, ascending. -/
def rowLE (a b : ConfigRow) : Prop :=
  clLE a.config_key.data b.config_key.data = true

instance : DecidableRel rowLE :=
  fun a b => inferInstanceAs (Decidable (clLE a.config_key.data b.config_key.data = true))

/-- Semantics of
`SELECT config_key, config_value, description, updated_at FROM app_config ORDER BY config_key`:
the table's rows sorted by key ascending. -/
def sqlSelectOrdered (table : List ConfigRow) : List ConfigRow :=
  table.insertionSort rowLE

/-- The databases behind the pools: per-tenant `app_config` table state. -/
abbrev Db := List (String × List ConfigRow)

/-- The `app_config` table of tenant `d` (empty if never written). -/
def dbTable (db : Db) (d : String) : List ConfigRow :=
  (db.lookup d).getD []

/-- Replace (or create) the `app_config` table of tenant `d`. -/
def dbSet : Db → String → List ConfigRow → Db
  | [], d, t => [(d, t)]
  | (k, v) :: rest, d, t =>
      if k = d then (k, t) :: rest else (k, v) :: dbSet rest d t

/-- The mutable state the routes touch: the pool registry and the backing
databases. -/
structure ServerState where
  registry : Registry
  db : Db
deriving DecidableEq

/-- Process-start state: empty registry, empty databases. -/
def ServerState.init : ServerState := ⟨Registry.init, []⟩

/-- An HTTP request to an `/api/app-config` route: the optional `X-DB-Name`
header and the JSON body fields (absent fields are `undefined`). -/
structure Request where
  dbNameHeader : Option String
  config_key : JSValue := .undefined
  config_value : JSValue := .undefined
  description : JSValue := .undefined
deriving DecidableEq

/-- A response body: plain text, a JSON `{error: message}` object, a JSON
row, or a JSON array of rows. -/
inductive Body where
  | text (s : String)
  | jsonError (msg : String)
  | jsonRow (r : ConfigRow)
  | jsonRows (rs : List ConfigRow)
deriving DecidableEq

/-- An HTTP response: status code and body. -/
structure Response where
  status : Nat
  body : Body
deriving DecidableEq

/-- The `GET /api/app-config` handler: resolve the tenant (errors become
`400 {error}`), get-or-create its pool, run the ordered select, return the
rows as JSON. -/
def getAppConfig (env : Env) (st : ServerState) (hdr : Option String) :
    ServerState × Response :=
  match getDbName (allowedDbs env) hdr with
  | .error msg => (st, ⟨400, .jsonError msg⟩)
  | .ok dbName =>
      let pr := getPool env st.registry dbName
      let st1 : ServerState := { st with registry := pr.2 }
      (st1, ⟨200, .jsonRows (sqlSelectOrdered (dbTable st1.db dbName))⟩)

/-- The `POST /api/app-config` handler: resolve the tenant, get-or-create
its pool, reject a falsy `config_key` with `400 {error: 'config_key required'}`,
else run the upsert with `config_value || null` and `description || null`
and return the resulting row as JSON. -/
def postAppConfig (env : Env) (st : ServerState) (req : Request) (now : Nat) :
    ServerState × Response :=
  match getDbName (allowedDbs env) req.dbNameHeader with
  | .error msg => (st, ⟨400, .jsonError msg⟩)
  | .ok dbName =>
      let pr := getPool env st.registry dbName
      let st1 : ServerState := { st with registry := pr.2 }
      if !req.config_key.truthy then
        (st1, ⟨400, .jsonError "config_key required"⟩)
      else
        let res := sqlUpsert (dbTable st1.db dbName) req.config_key
          req.config_value.orNull req.description.orNull now
        ({ st1 with db := dbSet st1.db dbName res.1 }, ⟨200, .jsonRow res.2⟩)

/-- The method/path pairs registered on the Express app. -/
def routes : List (String × String) :=
  [("GET", "/api/app-config"), ("POST", "/api/app-config"), ("GET", "/")]

/-- The `GET /` health-check handler's response: `res.send(...)` with the
default status 200. -/
def rootGet : Response := ⟨200, .text "Admin panel API is running"⟩

/-- An example environment: `ALLOWED_DBS=tenantA`, everything else unset. -/
def envA : Env := { ALLOWED_DBS := some "tenantA" }

/-- Registry well-formedness: every cached pool was constructed for the
tenant it is stored under, with no maximum-connection option set. -/
def Registry.WF (st : Registry) : Prop :=
  ∀ e ∈ st.pools, e.2.config.database = e.1 ∧ e.2.config.max = none

/-! ### Helper lemmas -/

theorem jsSplit_ne_nil (sep : Char) (s : List Char) : jsSplit sep s ≠ [] := by
  cases s with
  | nil => simp [jsSplit]
  | cons c rest =>
    simp only [jsSplit]
    split
    · simp
    · split <;> simp

theorem allowedDbs_ne_nil (env : Env) : allowedDbs env ≠ [] := by
  simp only [allowedDbs, ne_eq, List.map_eq_nil_iff]
  exact jsSplit_ne_nil _ _

theorem clLE_total (a b : List Char) : clLE a b = true ∨ clLE b a = true := by
  induction a generalizing b with
  | nil => left; rfl
  | cons x xs ih =>
    cases b with
    | nil => right; rfl
    | cons y ys =>
      by_cases hxy : x = y
      · subst hxy
        rcases ih ys with h | h
        · left; simp [clLE, h]
        · right; simp [clLE, h]
      · rcases lt_trichotomy x y with h | h | h
        · left; simp [clLE, hxy, h]
        · exact absurd h hxy
        · right; simp [clLE, Ne.symm hxy, h]

theorem clLE_trans (a b c : List Char) (hab : clLE a b = true) (hbc : clLE b c = true) :
    clLE a c = true := by
  induction a generalizing b c with
  | nil => rfl
  | cons x xs ih =>
    cases b with
    | nil => simp [clLE] at hab
    | cons y ys =>
      cases c with
      | nil => simp [clLE] at hbc
      | cons z zs =>
        by_cases hxy : x = y
        · subst hxy
          by_cases hyz : x = z
          · subst hyz
            simp only [clLE, if_pos rfl] at hab hbc ⊢
            exact ih ys zs hab hbc
          · simp only [clLE, if_pos rfl, if_neg hyz] at hbc ⊢
            exact hbc
        · simp only [clLE, if_neg hxy, decide_eq_true_eq] at hab
          by_cases hyz : y = z
          · subst hyz
            simp only [clLE, if_neg hxy, decide_eq_true_eq]
            exact hab
          · simp only [clLE, if_neg hyz, decide_eq_true_eq] at hbc
            have hxz : x < z := lt_trans hab hbc
            simp [clLE, ne_of_lt hxz, hxz]

instance : IsTotal ConfigRow rowLE :=
  ⟨fun a b => clLE_total a.config_key.data b.config_key.data⟩

instance : IsTrans ConfigRow rowLE :=
  ⟨fun a b c => clLE_trans a.config_key.data b.config_key.data c.config_key.data⟩

theorem keyIs_iff (k : String) (r : ConfigRow) : keyIs k r = true ↔ r.config_key = k := by
  simp [keyIs]

theorem lookup_append_single {β : Type} (l : List (String × β)) (d : String) (p : β)
    (h : l.lookup d = none) : (l ++ [(d, p)]).lookup d = some p := by
  induction l with
  | nil => simp [List.lookup]
  | cons kv rest ih =>
    obtain ⟨k, v⟩ := kv
    by_cases hk : d = k
    · subst hk
      simp [List.lookup] at h
    · have hbeq : (d == k) = false := by simp [hk]
      simp only [List.lookup, hbeq] at h
      simp only [List.cons_append, List.lookup, hbeq]
      exact ih h

theorem mem_of_lookup_some {β : Type} {l : List (String × β)} {k : String} {v : β}
    (h : l.lookup k = some v) : (k, v) ∈ l := by
  induction l with
  | nil => simp [List.lookup] at h
  | cons kv rest ih =>
    obtain ⟨k', v'⟩ := kv
    by_cases hk : k = k'
    · subst hk
      simp only [List.lookup, beq_self_eq_true, Option.some.injEq] at h
      simp [h]
    · have hbeq : (k == k') = false := by simp [hk]
      simp only [List.lookup, hbeq] at h
      exact List.mem_cons_of_mem _ (ih h)

theorem sqlUpsert_row (table : List ConfigRow) (key value descr : JSValue) (now : Nat) :
    (sqlUpsert table key value descr now).2 = ⟨key.sqlText, value, descr, now⟩ := by
  simp only [sqlUpsert]
  split <;> rfl

theorem filter_map_replace (l : List ConfigRow) (row : ConfigRow) (k : String)
    (hrow : row.config_key = k) (hnd : (l.map (fun r => r.config_key)).Nodup) :
    ((l.map (fun r => if keyIs k r then row else r)).filter (keyIs k))
      = if l.any (keyIs k) then [row] else [] := by
  induction l with
  | nil => simp
  | cons a t ih =>
    simp only [List.map_cons, List.nodup_cons, List.mem_map] at hnd
    obtain ⟨ha, hnd'⟩ := hnd
    by_cases h : a.config_key = k
    · have htail : ∀ r ∈ t, ¬(keyIs k r = true) := by
        intro r hr hc
        exact ha ⟨r, hr, by rw [keyIs_iff] at hc; rw [hc, h]⟩
      have hmap : t.map (fun r => if keyIs k r then row else r) = t := by
        refine (List.map_congr_left fun r hr => ?_).trans (List.map_id t)
        rw [if_neg (htail r hr)]
        rfl
      rw [List.map_cons, if_pos (keyIs_iff k a |>.mpr h), hmap, List.filter_cons,
        if_pos (keyIs_iff k row |>.mpr hrow), List.filter_eq_nil_iff.mpr htail,
        List.any_cons, keyIs, decide_eq_true (by rw [h]), Bool.true_or, if_pos rfl]
    · have hfa : keyIs k a = false := by
        rw [Bool.eq_false_iff]
        intro hc
        exact h ((keyIs_iff k a).mp hc)
      rw [List.map_cons, if_neg (by rw [hfa]; exact Bool.false_ne_true),
        List.filter_cons, if_neg (by rw [hfa]; exact Bool.false_ne_true),
        List.any_cons, hfa, Bool.false_or]
      exact ih hnd'

theorem sqlUpsert_filter (table : List ConfigRow) (key value descr : JSValue) (now : Nat)
    (hnd : (table.map (fun r => r.config_key)).Nodup) :
    ((sqlUpsert table key value descr now).1.filter (keyIs key.sqlText))
      = [(sqlUpsert table key value descr now).2] := by
  simp only [sqlUpsert]
  by_cases h : table.any (keyIs key.sqlText) = true
  · rw [if_pos h]
    simp only
    rw [filter_map_replace table _ key.sqlText rfl hnd, if_pos h]
  · rw [if_neg h]
    have hnil : List.filter (keyIs key.sqlText) table = [] :=
      List.filter_eq_nil_iff.mpr fun r hr hc => h (List.any_eq_true.mpr ⟨r, hr, hc⟩)
    simp [List.filter_append, hnil, keyIs]

theorem sqlUpsert_keys (table : List ConfigRow) (key value descr : JSValue) (now : Nat) :
    (sqlUpsert table key value descr now).1.map (fun r => r.config_key)
      = if table.any (keyIs key.sqlText)
        then table.map (fun r => r.config_key)
        else table.map (fun r => r.config_key) ++ [key.sqlText] := by
  simp only [sqlUpsert]
  split
  · rw [List.map_map]
    refine List.map_congr_left fun r _ => ?_
    by_cases h : keyIs key.sqlText r = true
    · simp only [Function.comp_apply, if_pos h]
      exact ((keyIs_iff _ _).mp h).symm
    · simp only [Function.comp_apply, if_neg h]
  · simp

theorem sqlUpsert_keys_nodup (table : List ConfigRow) (key value descr : JSValue) (now : Nat)
    (hnd : (table.map (fun r => r.config_key)).Nodup) :
    ((sqlUpsert table key value descr now).1.map (fun r => r.config_key)).Nodup := by
  rw [sqlUpsert_keys]
  split
  · exact hnd
  case isFalse h =>
    rw [List.nodup_append]
    refine ⟨hnd, List.nodup_singleton _, ?_⟩
    intro x hx hx'
    simp only [List.mem_singleton] at hx'
    subst hx'
    obtain ⟨r, hr, hkey⟩ := List.mem_map.mp hx
    exact h (List.any_eq_true.mpr ⟨r, hr, (keyIs_iff _ _).mpr hkey⟩)

theorem sqlUpsert_any (table : List ConfigRow) (key value descr : JSValue) (now : Nat) :
    (sqlUpsert table key value descr now).1.any (keyIs key.sqlText) = true := by
  simp only [sqlUpsert]
  split
  case isTrue h =>
    obtain ⟨r, hr, hkey⟩ := List.any_eq_true.mp h
    refine List.any_eq_true.mpr ⟨_, List.mem_map_of_mem _ hr, ?_⟩
    rw [if_pos hkey]
    exact (keyIs_iff _ _).mpr rfl
  case isFalse h =>
    refine List.any_eq_true.mpr ⟨_, List.mem_append_right _ (List.mem_singleton_self _), ?_⟩
    exact (keyIs_iff _ _).mpr rfl

theorem sqlUpsert_mem (table : List ConfigRow) (key value descr : JSValue) (now : Nat) :
    (sqlUpsert table key value descr now).2 ∈ (sqlUpsert table key value descr now).1 := by
  simp only [sqlUpsert]
  split
  case isTrue h =>
    obtain ⟨r, hr, hkey⟩ := List.any_eq_true.mp h
    simp only
    refine List.mem_map.mpr ⟨r, hr, ?_⟩
    rw [if_pos hkey]
  case isFalse h =>
    exact List.mem_append_right _ (List.mem_singleton_self _)

theorem dbTable_dbSet_self (db : Db) (d : String) (t : List ConfigRow) :
    dbTable (dbSet db d t) d = t := by
  induction db with
  | nil => simp [dbSet, dbTable, List.lookup]
  | cons kv rest ih =>
    obtain ⟨k, v⟩ := kv
    by_cases h : k = d
    · subst h
      simp [dbSet, dbTable, List.lookup]
    · have hbeq : (d == k) = false := by simp [Ne.symm h]
      simp only [dbSet, if_neg h, dbTable, List.lookup, hbeq]
      simp only [dbTable] at ih
      exact ih

/-! ### Claim theorems -/

/-- C1: the pool registry holds at most one pool per tenant: `getPool` for a
tenant already in the registry returns the existing pool with the registry
unchanged; for an unseen tenant it constructs and inserts exactly one new
pool; and acquiring again after an acquire returns the very same pool and
registry, so any number of acquires for one tenant share a single pool. -/
theorem getPool_at_most_one_pool_per_tenant (env : Env) (st : Registry) (d : String) :
    (∀ p, st.pools.lookup d = some p → getPool env st d = (p, st)) ∧
    (st.pools.lookup d = none →
      (getPool env st d).2.pools = st.pools ++ [(d, (getPool env st d).1)]) ∧
    getPool env (getPool env st d).2 d = getPool env st d := by
  refine ⟨fun p hp => ?_, fun hn => ?_, ?_⟩
  · simp [getPool, hp]
  · simp [getPool, hn]
  · rcases hl : st.pools.lookup d with _ | p
    · have h1 : getPool env st d
          = (⟨st.nextId, mkPoolConfig env d⟩,
              ⟨st.pools ++ [(d, ⟨st.nextId, mkPoolConfig env d⟩)], st.nextId + 1⟩) := by
        simp [getPool, hl]
      rw [h1]
      simp [getPool, lookup_append_single _ _ _ hl]
    · simp [getPool, hl]

/-- C1 witness: acquiring "tenantA" twice from the empty registry yields the
same pool and registry as acquiring it once, and the first acquire inserts
exactly one entry. -/
theorem getPool_at_most_one_pool_per_tenant_witness :
    Registry.init.pools.lookup "tenantA" = none ∧
    (getPool envA Registry.init "tenantA").2.pools
      = Registry.init.pools ++ [("tenantA", (getPool envA Registry.init "tenantA").1)] ∧
    getPool envA (getPool envA Registry.init "tenantA").2 "tenantA"
      = getPool envA Registry.init "tenantA" :=
  ⟨rfl,
    (getPool_at_most_one_pool_per_tenant envA Registry.init "tenantA").2.1 rfl,
    (getPool_at_most_one_pool_per_tenant envA Registry.init "tenantA").2.2⟩

/-- C2 counterexample: with `ALLOWED_DBS` unset (an empty configured
allow-list) and no explicit tenant, resolution succeeds with the
empty-string tenant — it does not fail — because splitting the empty
string yields `[""]` and the default (first entry) is `""`, which the
parsed list contains. -/
theorem getDbName_empty_allowlist_succeeds :
    getDbName (allowedDbs {}) none = .ok "" := by decide

/-- C2 (amended): resolution fails with `DB ... not allowed` exactly when an
explicit non-empty tenant string is given that is not in the parsed
allow-list; an explicit allow-listed tenant resolves to itself; and with no
header (or an empty one) resolution always succeeds with the first parsed
entry — even when the configured allow-list is empty, in which case that
entry is the empty string. -/
theorem getDbName_invalid_tenant_characterization (env : Env) (hdr : Option String) :
    (∀ h, hdr = some h → h ≠ "" → h ∉ allowedDbs env →
      getDbName (allowedDbs env) hdr = .error ("DB " ++ h ++ " not allowed")) ∧
    (∀ h, hdr = some h → h ≠ "" → h ∈ allowedDbs env →
      getDbName (allowedDbs env) hdr = .ok h) ∧
    ((hdr = none ∨ hdr = some "") →
      getDbName (allowedDbs env) hdr = .ok ((allowedDbs env).headD "")) := by
  obtain ⟨a, l, he⟩ := List.exists_cons_of_ne_nil (allowedDbs_ne_nil env)
  refine ⟨fun h hh hne hmem => ?_, fun h hh hne hmem => ?_, fun hd => ?_⟩
  · subst hh
    simp [getDbName, hne, hmem]
  · subst hh
    simp [getDbName, hne, hmem]
  · have hmem : a ∈ allowedDbs env := by rw [he]; exact List.mem_cons_self a l
    rcases hd with hd | hd <;> subst hd <;>
      simp [getDbName, he, hmem]

/-- C2 witness: with allow-list ["tenantA"], the explicit tenant "tenantB"
is rejected with the expected error message. -/
theorem getDbName_invalid_tenant_characterization_witness :
    ("tenantB" : String) ≠ "" ∧ "tenantB" ∉ allowedDbs envA ∧
    getDbName (allowedDbs envA) (some "tenantB")
      = .error ("DB " ++ "tenantB" ++ " not allowed") :=
  ⟨by decide, by decide,
    (getDbName_invalid_tenant_characterization envA (some "tenantB")).1 "tenantB" rfl
      (by decide) (by decide)⟩

/-- C3: with allow-list ["tenantA"], a request with no X-DB-Name header
resolves to "tenantA", and a request with X-DB-Name: tenantB gets a 4xx
response whose JSON error body contains the string "tenantB". -/
theorem tenant_example_end_to_end :
    getDbName (allowedDbs envA) none = .ok "tenantA" ∧
    (400 ≤ (getAppConfig envA ServerState.init (some "tenantB")).2.status ∧
      (getAppConfig envA ServerState.init (some "tenantB")).2.status < 500) ∧
    (getAppConfig envA ServerState.init (some "tenantB")).2.body
      = .jsonError ("DB " ++ "tenantB" ++ " not allowed") :=
  ⟨by decide, ⟨by decide, by decide⟩, by decide⟩

/-- C7 counterexample: the pool constructed for "tenantA" carries no
maximum-connection option at all — in particular it is not the claimed
fixed maximum of 5. -/
theorem pool_config_no_max_five :
    (getPool envA Registry.init "tenantA").1.config.max ≠ some 5 := by decide

/-- C7 (amended): every pool handed out by the registry is bound to exactly
one tenant at creation — its configuration's database is the tenant it was
acquired for — but `new Pool` is called without a `max` option, so no
5-connection bound (nor any other) is configured by this code; the library
default applies.  Both facts are preserved by every acquire. -/
theorem getPool_database_binding (env : Env) (st : Registry) (d : String)
    (hwf : st.WF) :
    (getPool env st d).1.config.database = d ∧
    (getPool env st d).1.config.max = none ∧
    (getPool env st d).2.WF := by
  rcases hl : st.pools.lookup d with _ | p
  · refine ⟨by simp [getPool, hl, mkPoolConfig], by simp [getPool, hl, mkPoolConfig], ?_⟩
    intro e he
    simp only [getPool, hl, List.mem_append, List.mem_singleton] at he
    rcases he with he | he
    · exact hwf e he
    · subst he
      simp [mkPoolConfig]
  · have hp := hwf (d, p) (mem_of_lookup_some hl)
    refine ⟨?_, ?_, ?_⟩
    · simp only [getPool, hl]
      exact hp.1
    · simp only [getPool, hl]
      exact hp.2
    · simp only [getPool, hl]
      exact hwf

/-- C7 witness: from the empty (well-formed) registry, the pool acquired for
"tenantA" is bound to database "tenantA" and has no max option. -/
theorem getPool_database_binding_witness :
    Registry.init.WF ∧
    ((getPool envA Registry.init "tenantA").1.config.database = "tenantA" ∧
      (getPool envA Registry.init "tenantA").1.config.max = none ∧
      (getPool envA Registry.init "tenantA").2.WF) :=
  ⟨fun e he => absurd he (List.not_mem_nil e),
    getPool_database_binding envA Registry.init "tenantA"
      (fun e he => absurd he (List.not_mem_nil e))⟩

/-- C8 counterexample: the app registers no GET /api/healthz route at all
(an unmatched path falls through to the framework's 404), so that request
cannot return 200 "ok". -/
theorem no_healthz_route : ("GET", "/api/healthz") ∉ routes := by decide

/-- C8 (amended): the only tenant-free health endpoint is GET /, which
returns 200 with the plain body "Admin panel API is running" (not "ok");
no /api/healthz route exists. -/
theorem health_check_is_root :
    ("GET", "/") ∈ routes ∧
    rootGet = ⟨200, .text "Admin panel API is running"⟩ ∧
    ("GET", "/api/healthz") ∉ routes :=
  ⟨by decide, rfl, by decide⟩

/-- C5 counterexample: an upsert whose config_key is the number 5 — not a
string — is not rejected: it returns 200 and writes a row, refuting the
claim that every non-string key fails validation with no write. -/
theorem upsert_numeric_key_accepted :
    (postAppConfig envA ServerState.init ⟨none, .num 5, .str "x", .null⟩ 0).2.status = 200 ∧
    (postAppConfig envA ServerState.init ⟨none, .num 5, .str "x", .null⟩ 0).1.db
      = [("tenantA", [⟨"5", .str "x", .null, 0⟩])] :=
  ⟨by decide, by decide⟩

/-- C5 (amended): key validation is JS falsiness, not a string check: an
upsert whose config_key is falsy (absent, null, false, 0 or "") fails with
400 "config_key required" and writes nothing, while any truthy key —
including a non-string one such as a nonzero number — is accepted with a
200 response. -/
theorem upsert_key_validation (env : Env) (st : ServerState) (req : Request)
    (now : Nat) (d : String)
    (hres : getDbName (allowedDbs env) req.dbNameHeader = .ok d) :
    (req.config_key.truthy = false →
      (postAppConfig env st req now).2 = ⟨400, .jsonError "config_key required"⟩ ∧
      (postAppConfig env st req now).1.db = st.db) ∧
    (req.config_key.truthy = true →
      (postAppConfig env st req now).2.status = 200) := by
  constructor
  · intro hk
    constructor <;> simp [postAppConfig, hres, hk]
  · intro hk
    simp [postAppConfig, hres, hk]

/-- C5 witness: with allow-list ["tenantA"], an upsert with the falsy key
`false` is rejected with 400 and leaves the database unchanged. -/
theorem upsert_key_validation_witness :
    getDbName (allowedDbs envA) none = .ok "tenantA" ∧
    (JSValue.bool false).truthy = false ∧
    ((postAppConfig envA ServerState.init ⟨none, .bool false, .str "x", .null⟩ 7).2
        = ⟨400, .jsonError "config_key required"⟩ ∧
      (postAppConfig envA ServerState.init ⟨none, .bool false, .str "x", .null⟩ 7).1.db
        = ServerState.init.db) :=
  ⟨by decide, rfl,
    (upsert_key_validation envA ServerState.init ⟨none, .bool false, .str "x", .null⟩ 7
      "tenantA" (by decide)).1 rfl⟩

/-- C9: in a successful upsert, a falsy config_value or description (false,
0, "" or null) is stored as null in the resulting record — `x || null`
collapses every falsy value — while a truthy value is stored as given; the
response carries that record and it is in the stored table. -/
theorem upsert_falsy_stored_null (env : Env) (st : ServerState) (req : Request)
    (now : Nat) (d : String)
    (hres : getDbName (allowedDbs env) req.dbNameHeader = .ok d)
    (hkey : req.config_key.truthy = true) :
    ∃ row, (postAppConfig env st req now).2 = ⟨200, .jsonRow row⟩ ∧
      row ∈ dbTable (postAppConfig env st req now).1.db d ∧
      row.config_value = (if req.config_value.truthy then req.config_value else .null) ∧
      row.description = (if req.description.truthy then req.description else .null) := by
  refine ⟨(sqlUpsert (dbTable st.db d) req.config_key req.config_value.orNull
      req.description.orNull now).2, ?_, ?_, ?_, ?_⟩
  · simp [postAppConfig, hres, hkey]
  · have hdb : (postAppConfig env st req now).1.db
        = dbSet st.db d (sqlUpsert (dbTable st.db d) req.config_key
            req.config_value.orNull req.description.orNull now).1 := by
      simp [postAppConfig, hres, hkey]
    rw [hdb, dbTable_dbSet_self]
    exact sqlUpsert_mem _ _ _ _ _
  · rw [sqlUpsert_row]
    simp [JSValue.orNull]
  · rw [sqlUpsert_row]
    simp [JSValue.orNull]

/-- C9 witness: an upsert of key "k" with config_value `false` and
description `0` (both falsy) stores and returns a record whose value and
description are null. -/
theorem upsert_falsy_stored_null_witness :
    getDbName (allowedDbs envA) none = .ok "tenantA" ∧
    (JSValue.str "k").truthy = true ∧
    (∃ row, (postAppConfig envA ServerState.init ⟨none, .str "k", .bool false, .num 0⟩ 3).2
        = ⟨200, .jsonRow row⟩ ∧
      row ∈ dbTable (postAppConfig envA ServerState.init
          ⟨none, .str "k", .bool false, .num 0⟩ 3).1.db "tenantA" ∧
      row.config_value
        = (if (JSValue.bool false).truthy then JSValue.bool false else .null) ∧
      row.description = (if (JSValue.num 0).truthy then JSValue.num 0 else .null)) :=
  ⟨by decide, by decide,
    upsert_falsy_stored_null envA ServerState.init ⟨none, .str "k", .bool false, .num 0⟩ 3
      "tenantA" (by decide) (by decide)⟩

/-- C10: tenant resolution and pool get-or-create run before payload
validation: an upsert request for an allowed, previously unseen tenant with
a falsy config_key is rejected with 400 and writes nothing to the database,
yet the pool registry now caches a freshly constructed pool for that
tenant. -/
theorem pool_cached_before_validation (env : Env) (st : ServerState) (req : Request)
    (now : Nat) (d : String)
    (hres : getDbName (allowedDbs env) req.dbNameHeader = .ok d)
    (hkey : req.config_key.truthy = false)
    (hnew : st.registry.pools.lookup d = none) :
    (postAppConfig env st req now).2 = ⟨400, .jsonError "config_key required"⟩ ∧
    (postAppConfig env st req now).1.db = st.db ∧
    (postAppConfig env st req now).1.registry.pools.lookup d
      = some ⟨st.registry.nextId, mkPoolConfig env d⟩ := by
  refine ⟨?_, ?_, ?_⟩
  · simp [postAppConfig, hres, hkey]
  · simp [postAppConfig, hres, hkey]
  · have hreg : (postAppConfig env st req now).1.registry
        = (getPool env st.registry d).2 := by
      simp [postAppConfig, hres, hkey]
    rw [hreg]
    simp only [getPool, hnew]
    exact lookup_append_single _ _ _ hnew

/-- C10 witness: a POST with no config_key for the unseen allowed tenant
"tenantA" is rejected with 400, the database keeps its state, and the
registry now holds a pool for "tenantA". -/
theorem pool_cached_before_validation_witness :
    getDbName (allowedDbs envA) none = .ok "tenantA" ∧
    (JSValue.undefined).truthy = false ∧
    ServerState.init.registry.pools.lookup "tenantA" = none ∧
    ((postAppConfig envA ServerState.init ⟨none, .undefined, .undefined, .undefined⟩ 1).2
        = ⟨400, .jsonError "config_key required"⟩ ∧
      (postAppConfig envA ServerState.init ⟨none, .undefined, .undefined, .undefined⟩ 1).1.db
        = ServerState.init.db ∧
      (postAppConfig envA ServerState.init
          ⟨none, .undefined, .undefined, .undefined⟩ 1).1.registry.pools.lookup "tenantA"
        = some ⟨ServerState.init.registry.nextId, mkPoolConfig envA "tenantA"⟩) :=
  ⟨by decide, rfl, rfl,
    pool_cached_before_validation envA ServerState.init
      ⟨none, .undefined, .undefined, .undefined⟩ 1 "tenantA" (by decide) rfl rfl⟩

/-- C6: the read-all operation answers 200 with exactly the stored records
(a permutation of the table), ordered by config_key ascending, and — under
the table's unique-key invariant — with no two records sharing a key. -/
theorem readAll_ordered_nodup (env : Env) (st : ServerState) (hdr : Option String)
    (d : String)
    (hres : getDbName (allowedDbs env) hdr = .ok d)
    (hnd : ((dbTable st.db d).map (fun r => r.config_key)).Nodup) :
    ∃ rows, (getAppConfig env st hdr).2 = ⟨200, .jsonRows rows⟩ ∧
      rows.Perm (dbTable st.db d) ∧
      rows.Sorted rowLE ∧
      (rows.map (fun r => r.config_key)).Nodup := by
  refine ⟨sqlSelectOrdered (dbTable st.db d), ?_, ?_, ?_, ?_⟩
  · simp [getAppConfig, hres]
  · exact List.perm_insertionSort _ _
  · exact List.sorted_insertionSort _ _
  · exact ((List.perm_insertionSort rowLE (dbTable st.db d)).map _).nodup_iff.mpr hnd

/-- C6 witness: reading the empty table of "tenantA" yields rows that are a
sorted, duplicate-free permutation of the (empty) table. -/
theorem readAll_ordered_nodup_witness :
    getDbName (allowedDbs envA) none = .ok "tenantA" ∧
    ((dbTable ServerState.init.db "tenantA").map (fun r => r.config_key)).Nodup ∧
    (∃ rows, (getAppConfig envA ServerState.init none).2 = ⟨200, .jsonRows rows⟩ ∧
      rows.Perm (dbTable ServerState.init.db "tenantA") ∧
      rows.Sorted rowLE ∧
      (rows.map (fun r => r.config_key)).Nodup) :=
  ⟨by decide, List.nodup_nil,
    readAll_ordered_nodup envA ServerState.init none "tenantA" (by decide) List.nodup_nil⟩

/-- C4: upserting key "k" with value "v1" and description "d1", then key "k"
with value "v2" and no description, leaves exactly one record for "k" — its
value "v2", its description null, its updated_at refreshed to the second
write time — and the second response returns exactly that record. -/
theorem upsert_twice_single_record (env : Env) (st : ServerState) (hdr : Option String)
    (d : String) (t1 t2 : Nat)
    (hres : getDbName (allowedDbs env) hdr = .ok d)
    (hnd : ((dbTable st.db d).map (fun r => r.config_key)).Nodup) :
    ((dbTable (postAppConfig env
        (postAppConfig env st ⟨hdr, .str "k", .str "v1", .str "d1"⟩ t1).1
        ⟨hdr, .str "k", .str "v2", .null⟩ t2).1.db d).filter (keyIs "k"))
      = [⟨"k", .str "v2", .null, t2⟩] ∧
    (postAppConfig env
        (postAppConfig env st ⟨hdr, .str "k", .str "v1", .str "d1"⟩ t1).1
        ⟨hdr, .str "k", .str "v2", .null⟩ t2).2
      = ⟨200, .jsonRow ⟨"k", .str "v2", .null, t2⟩⟩ := by
  have hk : (JSValue.str "k").truthy = true := by decide
  have hv1 : (JSValue.str "v1").orNull = .str "v1" := by decide
  have hd1 : (JSValue.str "d1").orNull = .str "d1" := by decide
  have hv2 : (JSValue.str "v2").orNull = .str "v2" := by decide
  have hnull : (JSValue.null).orNull = .null := rfl
  have h1 : (postAppConfig env st ⟨hdr, .str "k", .str "v1", .str "d1"⟩ t1).1.db
      = dbSet st.db d
          (sqlUpsert (dbTable st.db d) (.str "k") (.str "v1") (.str "d1") t1).1 := by
    simp [postAppConfig, hres, hk, hv1, hd1]
  have htab1 : dbTable (postAppConfig env st
        ⟨hdr, .str "k", .str "v1", .str "d1"⟩ t1).1.db d
      = (sqlUpsert (dbTable st.db d) (.str "k") (.str "v1") (.str "d1") t1).1 := by
    rw [h1, dbTable_dbSet_self]
  have hnd1 : ((dbTable (postAppConfig env st
        ⟨hdr, .str "k", .str "v1", .str "d1"⟩ t1).1.db d).map
          (fun r => r.config_key)).Nodup := by
    rw [htab1]
    exact sqlUpsert_keys_nodup _ _ _ _ _ hnd
  have h2 : (postAppConfig env
        (postAppConfig env st ⟨hdr, .str "k", .str "v1", .str "d1"⟩ t1).1
        ⟨hdr, .str "k", .str "v2", .null⟩ t2)
      = ({ registry := (getPool env
              (postAppConfig env st ⟨hdr, .str "k", .str "v1", .str "d1"⟩ t1).1.registry d).2,
            db := dbSet (postAppConfig env st ⟨hdr, .str "k", .str "v1", .str "d1"⟩ t1).1.db d
              (sqlUpsert (dbTable (postAppConfig env st
                  ⟨hdr, .str "k", .str "v1", .str "d1"⟩ t1).1.db d)
                (.str "k") (.str "v2") .null t2).1 },
          ⟨200, .jsonRow (sqlUpsert (dbTable (postAppConfig env st
              ⟨hdr, .str "k", .str "v1", .str "d1"⟩ t1).1.db d)
            (.str "k") (.str "v2") .null t2).2⟩) := by
    simp [postAppConfig, hres, hk, hv2, hnull]
  have hrow2 : (sqlUpsert (dbTable (postAppConfig env st
        ⟨hdr, .str "k", .str "v1", .str "d1"⟩ t1).1.db d)
      (.str "k") (.str "v2") .null t2).2 = ⟨"k", .str "v2", .null, t2⟩ :=
    sqlUpsert_row _ _ _ _ _
  constructor
  · rw [h2]
    simp only [dbTable_dbSet_self]
    have := sqlUpsert_filter (dbTable (postAppConfig env st
        ⟨hdr, .str "k", .str "v1", .str "d1"⟩ t1).1.db d)
      (.str "k") (.str "v2") .null t2 hnd1
    rw [show (JSValue.str "k").sqlText = "k" from rfl] at this
    rw [this, hrow2]
  · rw [h2]
    simp only [hrow2]

/-- C4 witness: performing the two upserts from the empty store of
"tenantA" leaves a single "k" record with value "v2" at time 2 and the
second response returns it. -/
theorem upsert_twice_single_record_witness :
    getDbName (allowedDbs envA) none = .ok "tenantA" ∧
    ((dbTable ServerState.init.db "tenantA").map (fun r => r.config_key)).Nodup ∧
    (((dbTable (postAppConfig envA
        (postAppConfig envA ServerState.init ⟨none, .str "k", .str "v1", .str "d1"⟩ 1).1
        ⟨none, .str "k", .str "v2", .null⟩ 2).1.db "tenantA").filter (keyIs "k"))
      = [⟨"k", .str "v2", .null, 2⟩] ∧
    (postAppConfig envA
        (postAppConfig envA ServerState.init ⟨none, .str "k", .str "v1", .str "d1"⟩ 1).1
        ⟨none, .str "k", .str "v2", .null⟩ 2).2
      = ⟨200, .jsonRow ⟨"k", .str "v2", .null, 2⟩⟩) :=
  ⟨by decide, List.nodup_nil,
    upsert_twice_single_record envA ServerState.init none "tenantA" 1 2
      (by decide) List.nodup_nil⟩

end VertexRag
